import Mathlib

/-!
Formal model of the Fusion game server core (nathiss/Fusion).

The development shallowly embeds the C++ sources:
  * `src/src/package_verifier.cpp` — `PackageVerifier::Verify` and the
    error-package constructors;
  * `src/src/game.cpp` — `Game::Join`, `Game::Leave`, `Game::GetCurrentState`,
    `Game::GetPlayersCount`, `Game::IsInGame`, `Game::DoResponse`;
  * `src/src/server.cpp` — `Server::MakeResponse`, `Server::Register`,
    `Server::Unregister`;
  * `src/src/websocket_session.cpp` — the outbound write queue state machine
    (`Write`, `HandleWrite`, `HandleHandshake`, `Close`) and the read path
    (`HandleRead`).

JSON values (`nlohmann::json`) are modelled by the inductive type `JVal`.
Two semantic points of the JSON library are reproduced faithfully, because
the server sources rely on them:

  * In an initializer-list construction such as
    `JSON({ {"closed", {true}}, ... }, false, value_t::object)`, an inner
    braced list `{x}` holding a single non-pair element builds a one-element
    ARRAY `[x]`, not the bare value `x` (nlohmann brace-initialization
    deduction). The helpers `mkNotValidJSON`, `mkUnidentified`,
    `make_game_full`, `make_unidentified_server` and the joined-reply builder
    therefore wrap each such value in `JVal.arr [·]`.
  * A `return std::make_pair(b, j)` from a function whose declared return type
    is `JSON` converts the pair through nlohmann’s `to_json` overload for
    `std::pair`, producing the two-element array `[b, j]`.  `Server::MakeResponse`
    returns through `std::make_pair` on every path, so its value is modelled
    with the wrapper `pairJSON`.

C++ `std::set` / `std::map` containers are modelled as association lists;
set iteration order is abstracted as insertion order (the pointer order of a
`std::set<std::pair<WebSocketSession*, ...>>` is not observable in the model).
Objects built by the server are canonicalized with `mkObj` (keys sorted, as
in `std::map`-backed `nlohmann::json` objects), so JSON value equality in the
model coincides with `nlohmann::json` equality on those values.
-/

/-- Model of an `nlohmann::json` value.  Number subtypes are kept apart the
same way `nlohmann::json::value_t` keeps them apart: `nU` is
`number_unsigned`, `nI` is `number_integer`, `nF` is `number_float` (the
float payload is carried as a rational, which is exact for every literal the
server ever constructs). -/
inductive JVal where
  | null : JVal
  | b : Bool → JVal
  | nU : Nat → JVal
  | nI : Int → JVal
  | nF : Rat → JVal
  | s : String → JVal
  | arr : List JVal → JVal
  | obj : List (String × JVal) → JVal

namespace JVal

/-- Entries of an object; any other value has none (nlohmann `items()` on a
non-object is not used by the modelled code paths). -/
def entries : JVal → List (String × JVal)
  | .obj kvs => kvs
  | _ => []

/-- Key lookup in an object, first match (object keys produced by parsing or
by `mkObj` are unique, mirroring the `std::map` storage). -/
def lookup (j : JVal) (k : String) : Option JVal :=
  (j.entries.find? (fun kv => kv.fst == k)).map Prod.snd

/-- Model of `json.contains(k)`: always false on non-objects. -/
def containsKey (j : JVal) (k : String) : Bool :=
  (j.lookup k).isSome

/-- Model of `json.size()` on an object (entry count). -/
def osize (j : JVal) : Nat := j.entries.length

/-- Elements of an array value; any other value has none. -/
def entriesArr : JVal → List JVal
  | .arr xs => xs
  | _ => []

/-- Model of `json[i]` on an array with `i` in bounds (every modelled access
is guarded by a size check in the verifier). -/
def atIdx (j : JVal) (i : Nat) : JVal := (j.entriesArr.get? i).getD .null

/-- Model of `json[k]` on a non-const object with a guaranteed-present key
(every modelled access is guarded by `contains` or by the package verifier). -/
def get (j : JVal) (k : String) : JVal := (j.lookup k).getD .null

/-- Model of `json[k]` on a NON-const object when the key may be missing:
`operator[]` inserts `null` and returns it (this is how
`Server::MakeResponse` reads the absent `"rays"` key of the join snapshot). -/
def getOrNull (j : JVal) (k : String) : JVal := (j.lookup k).getD .null

/-- Tag test for `value_t::number_unsigned`. -/
def isUnsigned : JVal → Bool
  | .nU _ => true
  | _ => false

/-- Tag test for `value_t::number_float`. -/
def isFloat : JVal → Bool
  | .nF _ => true
  | _ => false

/-- Tag test for `value_t::string`. -/
def isString : JVal → Bool
  | .s _ => true
  | _ => false

/-- Tag test for `value_t::array`. -/
def isArray : JVal → Bool
  | .arr _ => true
  | _ => false

/-- Tag test for objects. -/
def isObj : JVal → Bool
  | .obj _ => true
  | _ => false

end JVal

/-- Lexicographic byte-wise strict order on strings (the `std::string` order
used by the `std::map` inside `nlohmann::json` objects; all keys in the
modelled program are ASCII). -/
def strLtB (a b : String) : Bool :=
  go a.toList b.toList
where
  go : List Char → List Char → Bool
    | [], [] => false
    | [], _ :: _ => true
    | _ :: _, [] => false
    | x :: xs, y :: ys =>
      if x.toNat < y.toNat then true
      else if y.toNat < x.toNat then false
      else go xs ys

/-- Insert one key/value pair into a key-sorted association list, keeping the
first binding on a duplicate key (as `std::map::emplace` does). -/
def sortedInsert (kv : String × JVal) : List (String × JVal) → List (String × JVal)
  | [] => [kv]
  | hd :: tl =>
    if strLtB kv.fst hd.fst then kv :: hd :: tl
    else if kv.fst == hd.fst then hd :: tl
    else hd :: sortedInsert kv tl

/-- Build a JSON object from pairs, with keys sorted as in the `std::map`
that backs `nlohmann::json` objects. -/
def mkObj (kvs : List (String × JVal)) : JVal :=
  .obj (kvs.foldl (fun acc kv => sortedInsert kv acc) [])

/-- Model of `json["type"] == t` on a package whose `"type"` field may be
absent or non-string (the comparison of an `nlohmann::json` value with a
string literal is value equality, false on any non-string). -/
def typeIs (j : JVal) (t : String) : Bool :=
  match j.lookup "type" with
  | some (.s u) => u == t
  | _ => false

/-! ### Package verifier (`src/src/package_verifier.cpp`, `PackageVerifier`)

Each `Make*` helper below mirrors a `PackageVerifier::Make*` method.  The
source builds them as
`JSON({ {"closed", {true}}, {"type", {"error"}}, {"message", {"..."}} }, false, value_t::object)`;
per nlohmann initializer-list deduction the inner `{x}` lists become
one-element arrays, so every field value below is `JVal.arr [·]`. -/

/-- Model of `PackageVerifier::MakeNotValidJSON`. -/
def mkNotValidJSON : JVal :=
  mkObj [("closed", .arr [.b true]),
         ("type", .arr [.s "error"]),
         ("message", .arr [.s "One of the packages didn\x27t contain a valid JSON."])]

/-- Model of `PackageVerifier::MakeTypeNotFound`. -/
def mkTypeNotFound : JVal :=
  mkObj [("closed", .arr [.b true]),
         ("type", .arr [.s "error"]),
         ("message", .arr [.s "One of the packages didn\x27t have a \"type\" field."])]

/-- Model of `PackageVerifier::MakeNotValidJoin`. -/
def mkNotValidJoin : JVal :=
  mkObj [("closed", .arr [.b true]),
         ("type", .arr [.s "error"]),
         ("message", .arr [.s "A \"JOIN\" was ill-formed.."])]

/-- Model of `PackageVerifier::MakeNotValidUpdate`. -/
def mkNotValidUpdate : JVal :=
  mkObj [("closed", .arr [.b true]),
         ("type", .arr [.s "error"]),
         ("message", .arr [.s "A \"UPDATE\" was ill-formed."])]

/-- Model of `PackageVerifier::MakeNotValidLeave`. -/
def mkNotValidLeave : JVal :=
  mkObj [("closed", .arr [.b true]),
         ("type", .arr [.s "error"]),
         ("message", .arr [.s "A \"LEAVE\" was ill-formed."])]

/-- Model of `PackageVerifier::MakeUnidentified` (note `closed` is `{true}`
and `type` is `{"error"}`: the verifier REJECTS unidentified package types
with a fatal error package; the message typo "packge" is the source’s). -/
def mkUnidentified : JVal :=
  mkObj [("closed", .arr [.b true]),
         ("type", .arr [.s "error"]),
         ("message", .arr [.s "Cannot identify a packge."])]

/-- Shape check of the `"join"` branch of `PackageVerifier::Verify`:
`contains("id") && contains("nick") && contains("game") && size() == 3 + 1 &&
id is number_unsigned && nick is string && game is string`. -/
def joinShapeOk (j : JVal) : Bool :=
  j.containsKey "id" && j.containsKey "nick" && j.containsKey "game" &&
  j.osize == 3 + 1 &&
  (j.get "id").isUnsigned && (j.get "nick").isString && (j.get "game").isString

/-- Shape check of the `"update"` branch of `PackageVerifier::Verify`. -/
def updateShapeOk (j : JVal) : Bool :=
  j.containsKey "team_id" && j.containsKey "position" && j.containsKey "angle" &&
  j.osize == 3 + 1 &&
  (j.get "team_id").isUnsigned &&
  (j.get "position").isArray && (j.get "position").entriesArr.length == 2 &&
  ((j.get "position").atIdx 0).isFloat && ((j.get "position").atIdx 1).isFloat &&
  (j.get "angle").isFloat

/-- Model of `PackageVerifier::Verify`.  The input is the outcome of
`PackageParser::Parse` on the raw frame (`none` models a frame whose bytes
are not valid JSON; the JSON parser itself is the external library the spec
keeps out of scope). -/
def verify (parsed : Option JVal) : Bool × JVal :=
  match parsed with
  | none => (false, mkNotValidJSON)
  | some j =>
    if !(j.containsKey "type" && (j.get "type").isString) then
      (false, mkTypeNotFound)
    else if typeIs j "join" then
      if !joinShapeOk j then (false, mkNotValidJoin) else (true, j)
    else if typeIs j "update" then
      if !updateShapeOk j then (false, mkNotValidUpdate) else (true, j)
    else if typeIs j "leave" then
      if j.osize != 1 then (false, mkNotValidLeave) else (true, j)
    else
      (false, mkUnidentified)

/-- Outcome of `WebSocketSession::HandleRead` on one successfully read text
frame: on verify failure the session replies with the verifier’s package and
closes (`Close(make_Package(msg.dump()))`); on success the package is posted
to the current dispatch delegate. -/
inductive ReadOutcome where
  | closeWith (pkg : JVal)
  | dispatchTo (pkg : JVal)

/-- Model of the verify-and-dispatch tail of `WebSocketSession::HandleRead`
(`src/src/websocket_session.cpp`, lines 217-244).  This path is the same
whichever delegate (unjoined or in-game) the session currently holds. -/
def handleRead (parsed : Option JVal) : ReadOutcome :=
  let v := verify parsed
  if v.fst then .dispatchTo v.snd else .closeWith v.snd

/-! ### Game (`src/src/game.cpp`, the revision with `PlayerFactory` and the
players cache; claims cite its `Join` at lines 535-599, `GetCurrentState` at
669-691 and `DoResponse` at 693-726)

WebSocket sessions are identified by a `Nat` (abstracting the
`WebSocketSession*` pointer).  The two team containers
`std::set<std::pair<WebSocketSession*, std::shared_ptr<Player>>>` are
modelled as association lists whose iteration order abstracts the pointer
order of the set. -/

/-- The `Game::Team` enumeration. -/
inductive Team where
  | kFirst
  | kSecond
  | kRandom
deriving DecidableEq

/-- Numeric value of a `Team` enumerator (the `team_id` handed to
`PlayerFactory::Create`). -/
def Team.toId : Team → Nat
  | .kFirst => 0
  | .kSecond => 1
  | .kRandom => 2

/-- Model of `ui::Player` (fields set by `PlayerFactory::Create`).  The C++
`double` payloads are carried as rationals; the program only ever copies
them, never computes with them. -/
structure Player where
  id : Nat
  teamId : Nat
  nick : String
  health : Rat
  position : Int × Int
  color : Nat × Nat × Nat
  angle : Rat
deriving DecidableEq

/-- Model of `ui::Player::Serialize` (flat values: this serializer does not
use inner-brace initializer lists).  `position` serializes `int64_t`
coordinates (`number_integer`), `color` serializes `uint8_t` channels
(`number_unsigned`), `health` and `angle` are floats. -/
def Player.serialize (p : Player) : JVal :=
  mkObj [("player_id", .nU p.id),
         ("team_id", .nU p.teamId),
         ("nick", .s p.nick),
         ("color", .arr [.nU p.color.1, .nU p.color.2.1, .nU p.color.2.2]),
         ("health", .nF p.health),
         ("position", .arr [.nI p.position.1, .nI p.position.2]),
         ("angle", .nF p.angle)]

/-- Model of `ui::PlayerFactory` (its `Configuration`). -/
structure PlayerFactory where
  nextId : Nat
  healthDefault : Rat
  angleDefault : Rat
  positionDefault : Int × Int
  colorDefault : Nat × Nat × Nat
deriving DecidableEq

/-- Model of `PlayerFactory::Create`: builds a player from the stored
defaults and the post-incremented `next_id_`. -/
def PlayerFactory.create (f : PlayerFactory) (nick : String) (teamId : Nat) :
    Player × PlayerFactory :=
  ({ id := f.nextId, teamId := teamId, nick := nick, health := f.healthDefault,
     position := f.positionDefault, color := f.colorDefault, angle := f.angleDefault },
   { f with nextId := f.nextId + 1 })

/-- Default factory configuration (`PlayerFactory::Configuration()`:
`next_id_ = 0`, `health_default_ = 100.0`, `angle_default_ = 0`, and
value-initialized `Point` `(0,0)` and `Color` `(0,0,0)`). -/
def PlayerFactory.default : PlayerFactory :=
  { nextId := 0, healthDefault := 100, angleDefault := 0,
    positionDefault := (0, 0), colorDefault := (0, 0, 0) }

/-- Model of the `Game` state: the two team rosters, the players cache
`Session → Team`, and the player factory holding the id counter.  (The `rays_`
member exists in the class but none of the modelled operations reads or
writes it: `GetCurrentState` of this revision serializes only `players`.) -/
structure GameState where
  firstTeam : List (Nat × Player)
  secondTeam : List (Nat × Player)
  playersCache : List (Nat × Team)
  factory : PlayerFactory
deriving DecidableEq

namespace GameState

/-- A fresh game (`Game::Game()`). -/
def initial : GameState :=
  { firstTeam := [], secondTeam := [], playersCache := [], factory := PlayerFactory.default }

/-- Model of `Game::kMaxPlayersPerTeam`. -/
def kMaxPlayersPerTeam : Nat := 5

/-- Model of `Game::IsInGame`: a players-cache lookup. -/
def isInGame (g : GameState) (s : Nat) : Bool :=
  (g.playersCache.find? (fun kv => kv.fst == s)).isSome

/-- Model of `Game::GetPlayersCount`. -/
def getPlayersCount (g : GameState) : Nat :=
  g.firstTeam.length + g.secondTeam.length

/-- Model of `Game::GetCurrentState`: an object with the single key
`"players"`, first team serialized before the second team.  (This revision
does NOT put a `"rays"` key into the snapshot.) -/
def getCurrentState (g : GameState) : JVal :=
  mkObj [("players",
          .arr (g.firstTeam.map (fun kv => kv.snd.serialize) ++
                g.secondTeam.map (fun kv => kv.snd.serialize)))]

/-- Overwrite-or-append assignment on the players cache
(`players_cache_[session] = team`). -/
def cacheSet (c : List (Nat × Team)) (s : Nat) (t : Team) : List (Nat × Team) :=
  match c with
  | [] => [(s, t)]
  | hd :: tl => if hd.fst == s then (s, t) :: tl else hd :: cacheSet tl s t

/-- Erase the binding for key `s` from the players cache
(`players_cache_.erase(session)`). -/
def cacheErase (c : List (Nat × Team)) (s : Nat) : List (Nat × Team) :=
  match c with
  | [] => []
  | hd :: tl => if hd.fst == s then tl else hd :: cacheErase tl s

/-- Erase the (unique) roster entry with session `s`
(`team.erase(pair)` after the linear scan of `Game::Leave`). -/
def rosterErase (l : List (Nat × Player)) (s : Nat) : List (Nat × Player) :=
  match l with
  | [] => []
  | hd :: tl => if hd.fst == s then tl else hd :: rosterErase tl s

/-- Roster membership (the linear scan `for (pair : team) if (session == pair.first)`). -/
def rosterHas (l : List (Nat × Player)) (s : Nat) : Bool :=
  (l.find? (fun kv => kv.fst == s)).isSome

/-- Model of `Game::Join` (the in-place mutation of the C++ method is made
explicit: the returned `GameState` is the updated game, and the `Option` is
the `join_result_t` — `none` is the invalid-state result; the success payload
is the state snapshot plus the assigned player id, the delegate component of
the C++ tuple being the game delegate, tracked at the server level).

The `kRandom` case mirrors `first_team_.size() >= second_team_.size()` ⇒ the
session goes to the SECOND team; otherwise to the first; if the team chosen
this way is full the join fails without trying the other team. -/
def join (g : GameState) (s : Nat) (nick : String) (team : Team) :
    GameState × Option (JVal × Nat) :=
  if g.isInGame s then (g, none)
  else
    match team with
    | .kFirst =>
      if kMaxPlayersPerTeam ≤ g.firstTeam.length then (g, none)
      else
        let (p, f) := g.factory.create nick Team.kFirst.toId
        let g1 := { g with firstTeam := g.firstTeam ++ [(s, p)], factory := f }
        let g2 := { g1 with playersCache := cacheSet g1.playersCache s .kFirst }
        (g2, some (g2.getCurrentState, p.id))
    | .kSecond =>
      if kMaxPlayersPerTeam ≤ g.secondTeam.length then (g, none)
      else
        let (p, f) := g.factory.create nick Team.kSecond.toId
        let g1 := { g with secondTeam := g.secondTeam ++ [(s, p)], factory := f }
        let g2 := { g1 with playersCache := cacheSet g1.playersCache s .kSecond }
        (g2, some (g2.getCurrentState, p.id))
    | .kRandom =>
      if g.secondTeam.length ≤ g.firstTeam.length then
        if kMaxPlayersPerTeam ≤ g.secondTeam.length then (g, none)
        else
          let (p, f) := g.factory.create nick Team.kSecond.toId
          let g1 := { g with secondTeam := g.secondTeam ++ [(s, p)], factory := f }
          let g2 := { g1 with playersCache := cacheSet g1.playersCache s .kSecond }
          (g2, some (g2.getCurrentState, p.id))
      else
        if kMaxPlayersPerTeam ≤ g.firstTeam.length then (g, none)
        else
          let (p, f) := g.factory.create nick Team.kFirst.toId
          let g1 := { g with firstTeam := g.firstTeam ++ [(s, p)], factory := f }
          let g2 := { g1 with playersCache := cacheSet g1.playersCache s .kFirst }
          (g2, some (g2.getCurrentState, p.id))

/-- Model of `Game::Leave`: consult the players cache (falling back to a scan
of both teams when the cache has no entry, in which case `team_id` stays
`kRandom`), erase the cache entry, then erase the roster entry of the team
the cache named.  Returns the updated game and whether a removal occurred. -/
def leave (g : GameState) (s : Nat) : GameState × Bool :=
  let cached := g.playersCache.find? (fun kv => kv.fst == s)
  let teamId : Team := match cached with | some kv => kv.snd | none => .kRandom
  let g1 :=
    match cached with
    | some _ => { g with playersCache := cacheErase g.playersCache s }
    | none => g
  if (teamId == Team.kFirst || teamId == Team.kRandom) && rosterHas g1.firstTeam s then
    ({ g1 with firstTeam := rosterErase g1.firstTeam s }, true)
  else if (teamId == Team.kSecond || teamId == Team.kRandom) && rosterHas g1.secondTeam s then
    ({ g1 with secondTeam := rosterErase g1.secondTeam s }, true)
  else
    (g1, false)

end GameState

/-- The advisory package built by the `make_unidentified` lambda of
`Game::DoResponse` (this one has FLAT values: the source builds it without
inner braces). -/
def mkGameUnidentified : JVal :=
  mkObj [("type", .s "warning"),
         ("message", .s "Received an unidentified package."),
         ("closed", .b false)]

/-- Observable outcome of `Game::DoResponse`: the updated game plus what was
done to the addressed session.  `closed` records `session->Close()`,
`registered` records `session->delegate_ = Server::GetInstance().Register(session)`
(the swap back to the unjoined delegate), `sent` records the packages passed
to `session->Write`. -/
structure DoResponseResult where
  state : GameState
  closed : Bool
  registered : Bool
  sent : List JVal

/-- Model of `Game::DoResponse` (game.cpp lines 693-726).  The `"update"`
branch of this revision is an empty TODO.  NOTE the control flow of the
source: neither the `"update"` branch nor the successful `"leave"` branch
returns early, so execution falls through to the final
`session->Write(make_unidentified())` for those packages as well; only the
failed-leave path (`Close` + `return`) skips it. -/
def doResponse (g : GameState) (s : Nat) (req : JVal) : DoResponseResult :=
  if typeIs req "leave" then
    let r := g.leave s
    if !r.snd then
      { state := r.fst, closed := true, registered := false, sent := [] }
    else
      { state := r.fst, closed := false, registered := true, sent := [mkGameUnidentified] }
  else
    { state := g, closed := false, registered := false, sent := [mkGameUnidentified] }

/-! ### Server (`src/src/server.cpp`: `Register` lines 320-336, `Unregister`
lines 338-370, `MakeResponse` lines 397-455) -/

/-- Registry state of the `Server` singleton: `games_`,
`unidentified_sessions_`, `sessions_correlation_` and the `has_stopped_`
flag.  The `std::map`s are association lists with unique keys. -/
structure ServerState where
  games : List (String × GameState)
  unidentified : List Nat
  correlations : List (Nat × Option String)
  hasStopped : Bool

/-- Lookup in the games map (`games_.find(name)`). -/
def gamesFind (gs : List (String × GameState)) (name : String) : Option GameState :=
  (gs.find? (fun kv => kv.fst == name)).map Prod.snd

/-- Write back the (in-place mutated) game object under its name. -/
def gamesSet (gs : List (String × GameState)) (name : String) (g : GameState) :
    List (String × GameState) :=
  match gs with
  | [] => []
  | hd :: tl => if hd.fst == name then (name, g) :: tl else hd :: gamesSet tl name g

/-- Erase a game from the map (`games_.erase(name)`). -/
def gamesErase (gs : List (String × GameState)) (name : String) :
    List (String × GameState) :=
  match gs with
  | [] => []
  | hd :: tl => if hd.fst == name then tl else hd :: gamesErase tl name

/-- Lookup in the correlation map. -/
def corrFind (cs : List (Nat × Option String)) (s : Nat) : Option (Option String) :=
  (cs.find? (fun kv => kv.fst == s)).map Prod.snd

/-- Overwrite-or-append assignment in the correlation map
(`sessions_correlation_[session] = ...`). -/
def corrSet (cs : List (Nat × Option String)) (s : Nat) (v : Option String) :
    List (Nat × Option String) :=
  match cs with
  | [] => [(s, v)]
  | hd :: tl => if hd.fst == s then (s, v) :: tl else hd :: corrSet tl s v

/-- Erase a correlation entry. -/
def corrErase (cs : List (Nat × Option String)) (s : Nat) :
    List (Nat × Option String) :=
  match cs with
  | [] => []
  | hd :: tl => if hd.fst == s then tl else hd :: corrErase tl s

/-- Model of `Server::Register`: when the session already has a correlation
entry it only warns and returns the unjoined delegate; otherwise it creates
the `None` correlation and inserts the session into the unidentified set. -/
def serverRegister (st : ServerState) (s : Nat) : ServerState :=
  if (corrFind st.correlations s).isSome then st
  else
    { st with
      correlations := corrSet st.correlations s none,
      unidentified := if st.unidentified.contains s then st.unidentified
                      else st.unidentified ++ [s] }

/-- Model of `Server::Unregister`.  When the correlation names a game, the
source runs `games_[name]` (which would default-construct a null entry if the
name were absent — that access is only reachable with the game present, and
the model keeps the state unchanged in the impossible branch), calls
`game->Leave(session)`, and erases the game when its player count dropped to
zero. -/
def serverUnregister (st : ServerState) (s : Nat) : ServerState :=
  if st.hasStopped then st
  else
    match corrFind st.correlations s with
    | none => st
    | some gameName =>
      let st1 := { st with correlations := corrErase st.correlations s }
      match gameName with
      | none => { st1 with unidentified := st1.unidentified.filter (fun x => x ≠ s) }
      | some name =>
        match gamesFind st1.games name with
        | none => st1
        | some g =>
          let g1 := (g.leave s).fst
          if g1.getPlayersCount == 0 then
            { st1 with games := gamesErase st1.games name }
          else
            { st1 with games := gamesSet st1.games name g1 }

/-- The nlohmann `to_json` conversion of `std::pair<bool, JSON>`: a
two-element array.  Every `return` of `Server::MakeResponse` goes through
`std::make_pair(false, ·)` although the declared return type is `JSON`, so
this wrapper appears around every reply the unjoined delegate sends. -/
def pairJSON (bv : Bool) (j : JVal) : JVal := .arr [.b bv, j]

/-- Model of the `make_game_full` lambda of `Server::MakeResponse`
(`{"id", {id}}, {"result", {"full"}}` — inner braces, so singleton arrays). -/
def mkGameFull (id : Nat) : JVal :=
  mkObj [("id", .arr [.nU id]), ("result", .arr [.s "full"])]

/-- Model of the `make_unidentified` lambda of `Server::MakeResponse`
(unlike the Game one, this one is built WITH inner braces). -/
def mkServerUnidentified : JVal :=
  mkObj [("type", .arr [.s "warning"]),
         ("message", .arr [.s "Received an unidentified package."]),
         ("closed", .arr [.b false])]

/-- String payload of a JSON value (`std::string name = request["game"]`;
the access is guarded by the package verifier). -/
def JVal.asString : JVal → String
  | .s t => t
  | _ => ""

/-- Unsigned payload of a JSON value (`std::size_t` conversion of
`request["id"]`; guarded by the package verifier). -/
def JVal.asNat : JVal → Nat
  | .nU n => n
  | _ => 0

/-- Model of `Server::MakeResponse` plus the surrounding unjoined-delegate
effects.  Returns the updated registry and the JSON value whose `dump()` the
unjoined delegate writes to the session.  On `"join"`: find-or-create the
game, call `Game::Join` (the session’s nick travels in the join package), on
full reply `make_game_full(request["id"])`, on success swap the session’s
delegate (reflected here by the correlation update and the unidentified-set
erase) and build the joined reply from the snapshot — whose `"rays"` key does
not exist, so `operator[]` materializes `null` there. -/
def makeResponse (st : ServerState) (src : Nat) (request : JVal) :
    ServerState × JVal :=
  if typeIs request "join" then
    let name := (request.get "game").asString
    let found := gamesFind st.games name
    let g0 := match found with
              | some g => g
              | none => GameState.initial
    let stg := match found with
               | some _ => st
               | none => { st with games := st.games ++ [(name, GameState.initial)] }
    let jr := g0.join src (request.get "nick").asString .kRandom
    let st1 := { stg with games := gamesSet stg.games name jr.fst }
    match jr.snd with
    | none => (st1, pairJSON false (mkGameFull (request.get "id").asNat))
    | some (snapshot, pid) =>
      let st2 :=
        { st1 with
          unidentified := st1.unidentified.filter (fun x => x ≠ src),
          correlations := corrSet st1.correlations src (some name) }
      let reply := mkObj [
        ("id", .arr [request.get "id"]),
        ("result", .arr [.s "joined"]),
        ("my_id", .arr [.nU pid]),
        ("players", .arr [snapshot.getOrNull "players"]),
        ("rays", .arr [snapshot.getOrNull "rays"])]
      (st2, pairJSON false reply)
  else
    (st, pairJSON false mkServerUnidentified)

/-- Server-level effect of dispatching a verified package to a game’s
delegate (`Game::DoResponse` on the game stored in the map, including the
`Server::Register` call its leave branch makes). -/
def dispatchToGame (st : ServerState) (name : String) (s : Nat) (req : JVal) :
    ServerState × Option DoResponseResult :=
  match gamesFind st.games name with
  | none => (st, none)
  | some g =>
    let r := doResponse g s req
    let st1 := { st with games := gamesSet st.games name r.state }
    let st2 := if r.registered then serverRegister st1 s else st1
    (st2, some r)

/-! ### WebSocket session outbound-write state machine
(`src/src/websocket_session.cpp`: `Write` lines 40-75, `Close()` lines
77-111, `Close(Package)` lines 113-142, `HandleHandshake` lines 153-191,
`HandleWrite` lines 247-299)

The strand serializes a session’s own callbacks, so a session’s history is a
sequence of atomic steps.  `inFlight` counts async writes that have been
started (`websocket_.async_write`) and whose completion handler has not run
yet; `starts` counts every `async_write` call ever made.  Synchronous writes
(the closing-procedure `websocket_.write`) are not async writes and touch
neither counter. -/

/-- State of one session’s outbound pipeline. -/
structure SessState where
  queue : List Nat
  handshakeDone : Bool
  closing : Bool
  socketClosed : Bool
  inFlight : Nat
  starts : Nat
deriving DecidableEq

/-- The state of a freshly constructed session (handshake pending, queue
empty). -/
def SessState.init : SessState :=
  { queue := [], handshakeDone := false, closing := false, socketClosed := false,
    inFlight := 0, starts := 0 }

/-- One step of the session pipeline: a `Write(pkg)` call, the handshake
completion callback, a write-completion callback (with its error flag), or
one of the two `Close` overloads. -/
inductive SessOp where
  | write (p : Nat)
  | handshakeOk
  | handleWrite (err : Bool)
  | close
  | closePkg (p : Nat)

/-- Model of `WebSocketSession::Write`: drop the package when closing;
enqueue; return if a write is already queued behind the head or the
handshake is pending; otherwise start the async write of the head. -/
def stepWrite (st : SessState) (p : Nat) : SessState :=
  if st.closing then st
  else
    let q := st.queue ++ [p]
    if 1 < q.length then { st with queue := q }
    else if !st.handshakeDone then { st with queue := q }
    else { st with queue := q, inFlight := st.inFlight + 1, starts := st.starts + 1 }

/-- Model of the success path of `WebSocketSession::HandleHandshake`: mark
the handshake complete and, if writes were queued while handshaking, start
the async write of the head (then arm the read loop, outside this model). -/
def stepHandshake (st : SessState) : SessState :=
  if st.handshakeDone then st
  else
    let st1 := { st with handshakeDone := true }
    if st1.queue.isEmpty then st1
    else { st1 with inFlight := st1.inFlight + 1, starts := st1.starts + 1 }

/-- Model of `WebSocketSession::HandleWrite`: a completion callback exists
only for a started write; on error it returns without touching the queue; on
success it pops the sent head and either runs the closing procedure (sync
write of the next package, then socket close) or starts the next async
write when more packages wait. -/
def stepHandleWrite (st : SessState) (err : Bool) : SessState :=
  if st.inFlight == 0 then st
  else if err then { st with inFlight := st.inFlight - 1 }
  else
    let q := st.queue.tail
    if st.closing then
      { st with inFlight := st.inFlight - 1, queue := q, socketClosed := true }
    else if q.isEmpty then
      { st with inFlight := st.inFlight - 1, queue := q }
    else
      { st with inFlight := st.inFlight - 1 + 1, starts := st.starts + 1, queue := q }

/-- Model of `WebSocketSession::Close()`: on first entry set the closing
flag, truncate everything behind the currently-sending head, and close the
socket right away only when nothing is queued; a repeated call closes the
socket. -/
def stepClose (st : SessState) : SessState :=
  if !st.closing then
    if 1 < st.queue.length then { st with closing := true, queue := st.queue.take 1 }
    else if st.queue.length == 1 then { st with closing := true }
    else { st with closing := true, socketClosed := true }
  else { st with socketClosed := true }

/-- Model of `WebSocketSession::Close(Package)`: set the closing flag, keep
only the in-flight head plus the final package; when nothing is in flight,
write the final package synchronously and close the socket. -/
def stepClosePkg (st : SessState) (p : Nat) : SessState :=
  if 1 < st.queue.length then
    { st with closing := true, queue := st.queue.take 1 ++ [p] }
  else if st.queue.length == 1 then
    { st with closing := true, queue := st.queue ++ [p] }
  else
    { st with closing := true, socketClosed := true }

/-- Step function of the session pipeline. -/
def sessStep (st : SessState) : SessOp → SessState
  | .write p => stepWrite st p
  | .handshakeOk => stepHandshake st
  | .handleWrite err => stepHandleWrite st err
  | .close => stepClose st
  | .closePkg p => stepClosePkg st p

/-- Run a sequence of session steps from the initial state. -/
def sessRun (ops : List SessOp) : SessState :=
  ops.foldl sessStep SessState.init

/-- The inductive invariant of the write pipeline: at most one async write is
in flight; none before the handshake completes; and an in-flight write is
always the head of a non-empty queue. -/
def SessInv (st : SessState) : Prop :=
  st.inFlight ≤ 1 ∧
  (st.handshakeDone = false → st.inFlight = 0) ∧
  (st.inFlight = 1 → st.queue ≠ [])

/-! ### Derived predicates and concrete states used by the theorems -/

/-- Size of the team that `Game::Join` selects for a given `team` argument:
the named team for `kFirst`/`kSecond`; for `kRandom` the second team when
`first_team_.size() >= second_team_.size()` and the first team otherwise. -/
def GameState.selectedTeamSize (g : GameState) : Team → Nat
  | .kFirst => g.firstTeam.length
  | .kSecond => g.secondTeam.length
  | .kRandom =>
    if g.secondTeam.length ≤ g.firstTeam.length then g.secondTeam.length
    else g.firstTeam.length

/-- Both team rosters respect `kMaxPlayersPerTeam`. -/
def teamsBounded (g : GameState) : Prop :=
  g.firstTeam.length ≤ GameState.kMaxPlayersPerTeam ∧
  g.secondTeam.length ≤ GameState.kMaxPlayersPerTeam

/-- One game-level operation: a `Join`, a `Leave`, or a package dispatched to
the game’s delegate (`DoResponse`). -/
inductive GameOp where
  | join (s : Nat) (nick : String) (t : Team)
  | leave (s : Nat)
  | dispatch (s : Nat) (req : JVal)

/-- State effect of one game operation. -/
def GameState.applyOp (g : GameState) : GameOp → GameState
  | .join s n t => (g.join s n t).fst
  | .leave s => (g.leave s).fst
  | .dispatch s req => (doResponse g s req).state

/-- The game state after a sequence of operations on a fresh game. -/
def runGameOps (ops : List GameOp) : GameState :=
  ops.foldl GameState.applyOp GameState.initial

/-- A session pipeline state reachable from the initial state. -/
def SessReachable (st : SessState) : Prop :=
  ∃ ops, sessRun ops = st

/-- The given step calls `websocket_.async_write` (starts a new async write). -/
def startsNewWrite (st : SessState) (op : SessOp) : Prop :=
  st.starts < (sessStep st op).starts

/-- Rendering of claim C9’s mechanism clause: every start of an async write
happens either in a `Write` call that found the queue empty (the queue
transitions from empty to non-empty) or in the completion handler of the
previous write. -/
def startsOnlyFromEmptyWriteOrCompletion : Prop :=
  ∀ st op, SessReachable st → startsNewWrite st op →
    (∃ p, op = SessOp.write p ∧ st.queue = []) ∨ (∃ e, op = SessOp.handleWrite e)

/-- The reply package claim C5 names, built from the spec’s words (scalar
field values), for comparison with the verifier’s `mkNotValidJSON`. -/
def specNotValidJSONPkg : JVal :=
  mkObj [("closed", .b true),
         ("type", .s "error"),
         ("message", .s "One of the packages didn\x27t contain a valid JSON.")]

/-- The advisory package claim C4 names, built from the spec’s words. -/
def specAdvisoryWarning : JVal :=
  mkObj [("closed", .b false), ("type", .s "warning")]

/-- A parsed frame whose `type` is none of `join`/`update`/`leave`. -/
def pingPkg : JVal := .obj [("type", .s "ping")]

/-- The join package of the spec’s simple-join scenario
(`{"type":"join","id":7,"nick":"Al","game":"G"}` as parsed by nlohmann:
object keys in `std::map` order). -/
def joinReqAl : JVal :=
  .obj [("game", .s "G"), ("id", .nU 7), ("nick", .s "Al"), ("type", .s "join")]

/-- A parsed `{"type":"leave"}` package. -/
def leavePkg : JVal := .obj [("type", .s "leave")]

/-- A parsed, verifier-valid update package
(`{"type":"update","team_id":1,"position":[10.0,20.0],"angle":90.0}`). -/
def updatePkg : JVal :=
  .obj [("angle", .nF 90), ("position", .arr [.nF 10, .nF 20]),
        ("team_id", .nU 1), ("type", .s "update")]

/-- A server whose only state is one freshly registered (unjoined) session 0. -/
def freshServer : ServerState :=
  { games := [], unidentified := [0], correlations := [(0, none)], hasStopped := false }

/-- A game holding exactly session 0 on the first team. -/
def gOneFirst : GameState := (GameState.initial.join 0 "Al" .kFirst).fst

/-- A game holding session 0 on the first team and nobody else (spec scenario
for team selection: `first=[0]`, `second=[]`). -/
def gAfterA : GameState := gOneFirst

/-- A game whose first team is full (sessions 0..4). -/
def gFirstFull : GameState :=
  (List.range 5).foldl (fun g i => (g.join i "p" .kFirst).fst) GameState.initial

/-- A server with one game `"G"` whose sole member is session 0. -/
def serverOneInG : ServerState :=
  { games := [("G", gOneFirst)], unidentified := [],
    correlations := [(0, some "G")], hasStopped := false }

/-! ### Theorems -/

theorem typeIs_iff (j : JVal) (t : String) :
    typeIs j t = true ↔ j.lookup "type" = some (.s t) := by
  unfold typeIs
  cases h : j.lookup "type" with
  | none => simp
  | some v => cases v <;> simp [beq_iff_eq]

/-- C1: for a game whose teams have sizes `(a, b)`, a `Game::Join` with
`team = kRandom` by a session not in the game places the session in the
second team exactly when `a ≥ b` (i.e. `b ≤ a`) and in the first team
otherwise; when the team so chosen is full the join returns the invalid
result and leaves the game unchanged, without falling back to the other
team. -/
theorem join_random_selection (g : GameState) (s : Nat) (nick : String)
    (h : g.isInGame s = false) :
    (g.secondTeam.length ≤ g.firstTeam.length →
       (g.secondTeam.length < GameState.kMaxPlayersPerTeam →
          ∃ p, (g.join s nick .kRandom).fst.secondTeam = g.secondTeam ++ [(s, p)] ∧
               (g.join s nick .kRandom).fst.firstTeam = g.firstTeam ∧
               (g.join s nick .kRandom).fst.playersCache =
                 GameState.cacheSet g.playersCache s .kSecond ∧
               (g.join s nick .kRandom).snd.isSome = true) ∧
       (GameState.kMaxPlayersPerTeam ≤ g.secondTeam.length →
          g.join s nick .kRandom = (g, none))) ∧
    (g.firstTeam.length < g.secondTeam.length →
       (g.firstTeam.length < GameState.kMaxPlayersPerTeam →
          ∃ p, (g.join s nick .kRandom).fst.firstTeam = g.firstTeam ++ [(s, p)] ∧
               (g.join s nick .kRandom).fst.secondTeam = g.secondTeam ∧
               (g.join s nick .kRandom).fst.playersCache =
                 GameState.cacheSet g.playersCache s .kFirst ∧
               (g.join s nick .kRandom).snd.isSome = true) ∧
       (GameState.kMaxPlayersPerTeam ≤ g.firstTeam.length →
          g.join s nick .kRandom = (g, none))) := by
  constructor
  · intro hab
    constructor
    · intro hlt
      refine ⟨(g.factory.create nick Team.kSecond.toId).fst, ?_, ?_, ?_, ?_⟩ <;>
        simp [GameState.join, h, if_pos hab, if_neg (by omega : ¬ GameState.kMaxPlayersPerTeam ≤ g.secondTeam.length), PlayerFactory.create]
    · intro hge
      simp [GameState.join, h, if_pos hab, if_pos hge]
  · intro hba
    have hab : ¬ g.secondTeam.length ≤ g.firstTeam.length := by omega
    constructor
    · intro hlt
      refine ⟨(g.factory.create nick Team.kFirst.toId).fst, ?_, ?_, ?_, ?_⟩ <;>
        simp [GameState.join, h, if_neg hab, if_neg (by omega : ¬ GameState.kMaxPlayersPerTeam ≤ g.firstTeam.length), PlayerFactory.create]
    · intro hge
      simp [GameState.join, h, if_neg hab, if_pos hge]

/-- C1 witness: the spec’s team-selection scenario — with `first = [A]` and
`second = []`, a random join by session 1 lands on the second team. -/
theorem join_random_selection_witness :
    ∃ p, (gAfterA.join 1 "Bo" .kRandom).fst.secondTeam = gAfterA.secondTeam ++ [(1, p)] ∧
         (gAfterA.join 1 "Bo" .kRandom).fst.firstTeam = gAfterA.firstTeam ∧
         (gAfterA.join 1 "Bo" .kRandom).fst.playersCache =
           GameState.cacheSet gAfterA.playersCache 1 .kSecond ∧
         (gAfterA.join 1 "Bo" .kRandom).snd.isSome = true :=
  ((join_random_selection gAfterA 1 "Bo" (by decide)).1 (by decide)).1 (by decide)

/-- C2: joining a game (as a session not already in it) whose selected team
already holds `kMaxPlayersPerTeam = 5` players returns the invalid result and
changes nothing: the returned state is the input state, so both team rosters,
the players cache and the player-id counter are untouched.  (The reply the
unjoined delegate derives from this `none` is the `make_game_full` package;
its exact serialized form is settled with claim C3.) -/
theorem join_full_team_is_noop (g : GameState) (s : Nat) (nick : String) (t : Team)
    (h : g.isInGame s = false)
    (hfull : g.selectedTeamSize t = GameState.kMaxPlayersPerTeam) :
    g.join s nick t = (g, none) := by
  cases t with
  | kFirst =>
    simp only [GameState.selectedTeamSize] at hfull
    simp [GameState.join, h, if_pos (by omega : GameState.kMaxPlayersPerTeam ≤ g.firstTeam.length)]
  | kSecond =>
    simp only [GameState.selectedTeamSize] at hfull
    simp [GameState.join, h, if_pos (by omega : GameState.kMaxPlayersPerTeam ≤ g.secondTeam.length)]
  | kRandom =>
    simp only [GameState.selectedTeamSize] at hfull
    by_cases hab : g.secondTeam.length ≤ g.firstTeam.length
    · rw [if_pos hab] at hfull
      simp [GameState.join, h, if_pos hab, if_pos (by omega : GameState.kMaxPlayersPerTeam ≤ g.secondTeam.length)]
    · rw [if_neg hab] at hfull
      simp [GameState.join, h, if_neg hab, if_pos (by omega : GameState.kMaxPlayersPerTeam ≤ g.firstTeam.length)]

/-- C2 witness: a sixth explicit join to the full first team of `gFirstFull`
returns the invalid result and the identical game state. -/
theorem join_full_team_is_noop_witness :
    gFirstFull.join 9 "Zed" .kFirst = (gFirstFull, none) :=
  join_full_team_is_noop gFirstFull 9 "Zed" .kFirst (by decide) (by decide)

theorem rosterErase_length_le (l : List (Nat × Player)) (s : Nat) :
    (GameState.rosterErase l s).length ≤ l.length := by
  induction l with
  | nil => simp [GameState.rosterErase]
  | cons hd tl ih =>
    simp only [GameState.rosterErase]
    split
    · simp
    · simp; omega

theorem leave_teams_shape (g : GameState) (s : Nat) :
    ((g.leave s).fst.firstTeam = g.firstTeam ∨
     (g.leave s).fst.firstTeam = GameState.rosterErase g.firstTeam s) ∧
    ((g.leave s).fst.secondTeam = g.secondTeam ∨
     (g.leave s).fst.secondTeam = GameState.rosterErase g.secondTeam s) := by
  simp only [GameState.leave]
  cases hc : List.find? (fun kv => kv.fst == s) g.playersCache <;>
    simp only [hc] <;> split <;> simp <;> split <;> simp

theorem leave_preserves_bounded (g : GameState) (s : Nat) (hb : teamsBounded g) :
    teamsBounded (g.leave s).fst := by
  obtain ⟨h1, h2⟩ := hb
  obtain ⟨hf, hs⟩ := leave_teams_shape g s
  have e1 := rosterErase_length_le g.firstTeam s
  have e2 := rosterErase_length_le g.secondTeam s
  constructor
  · rcases hf with h | h <;> rw [h] <;> omega
  · rcases hs with h | h <;> rw [h] <;> omega

theorem join_preserves_bounded (g : GameState) (s : Nat) (nick : String) (t : Team)
    (hb : teamsBounded g) : teamsBounded (g.join s nick t).fst := by
  obtain ⟨h1, h2⟩ := hb
  by_cases hg : g.isInGame s = true
  · simp only [GameState.join, hg, if_true]
    exact ⟨h1, h2⟩
  · rw [Bool.not_eq_true] at hg
    cases t with
    | kFirst =>
      by_cases hf : GameState.kMaxPlayersPerTeam ≤ g.firstTeam.length
      · simp only [GameState.join, hg, Bool.false_eq_true, if_false, hf, if_true]
        exact ⟨h1, h2⟩
      · simp only [GameState.join, hg, Bool.false_eq_true, if_false, hf,
          PlayerFactory.create]
        refine ⟨?_, ?_⟩ <;>
          simp [GameState.kMaxPlayersPerTeam] at * <;> omega
    | kSecond =>
      by_cases hf : GameState.kMaxPlayersPerTeam ≤ g.secondTeam.length
      · simp only [GameState.join, hg, Bool.false_eq_true, if_false, hf, if_true]
        exact ⟨h1, h2⟩
      · simp only [GameState.join, hg, Bool.false_eq_true, if_false, hf,
          PlayerFactory.create]
        refine ⟨?_, ?_⟩ <;>
          simp [GameState.kMaxPlayersPerTeam] at * <;> omega
    | kRandom =>
      by_cases hab : g.secondTeam.length ≤ g.firstTeam.length
      · by_cases hf : GameState.kMaxPlayersPerTeam ≤ g.secondTeam.length
        · simp only [GameState.join, hg, Bool.false_eq_true, if_false, hab, if_true, hf]
          exact ⟨h1, h2⟩
        · simp only [GameState.join, hg, Bool.false_eq_true, if_false, hab, if_true, hf,
            PlayerFactory.create]
          refine ⟨?_, ?_⟩ <;>
            simp [GameState.kMaxPlayersPerTeam] at * <;> omega
      · by_cases hf : GameState.kMaxPlayersPerTeam ≤ g.firstTeam.length
        · simp only [GameState.join, hg, Bool.false_eq_true, if_false, hab, if_false, hf, if_true]
          exact ⟨h1, h2⟩
        · simp only [GameState.join, hg, Bool.false_eq_true, if_false, hab, if_false, hf,
            PlayerFactory.create]
          refine ⟨?_, ?_⟩ <;>
            simp [GameState.kMaxPlayersPerTeam] at * <;> omega

theorem applyOp_preserves_bounded (g : GameState) (op : GameOp) (hb : teamsBounded g) :
    teamsBounded (g.applyOp op) := by
  cases op with
  | join s n t => exact join_preserves_bounded g s n t hb
  | leave s => exact leave_preserves_bounded g s hb
  | dispatch s req =>
    simp only [GameState.applyOp, doResponse]
    by_cases hl : typeIs req "leave" = true
    · simp only [hl, if_true]
      by_cases hr : (g.leave s).snd = true
      · simp only [hr, Bool.not_true, Bool.false_eq_true, if_false]
        exact leave_preserves_bounded g s hb
      · rw [Bool.not_eq_true] at hr
        simp only [hr, Bool.not_false, if_true]
        exact leave_preserves_bounded g s hb
    · simp only [hl, if_false]
      exact hb

/-- C7: along any sequence of `Join`, `Leave` and delegate-dispatch
operations on a game, both team rosters stay within
`kMaxPlayersPerTeam = 5`; moreover every single `Join` preserves the bound. -/
theorem teams_always_bounded :
    (∀ ops : List GameOp, teamsBounded (runGameOps ops)) ∧
    (∀ (g : GameState) (s : Nat) (nick : String) (t : Team),
       teamsBounded g → teamsBounded (g.join s nick t).fst) := by
  constructor
  · have run : ∀ (ops : List GameOp) (g : GameState), teamsBounded g →
        teamsBounded (ops.foldl GameState.applyOp g) := by
      intro ops
      induction ops with
      | nil => intro g hg; simpa using hg
      | cons op tl ih =>
        intro g hg
        exact ih _ (applyOp_preserves_bounded g op hg)
    intro ops
    exact run ops GameState.initial ⟨by simp [GameState.initial], by simp [GameState.initial]⟩
  · exact fun g s nick t hb => join_preserves_bounded g s nick t hb

/-- C7 witness: the bound holds after a concrete operation sequence, and a
join into a concretely bounded game keeps the bound. -/
theorem teams_always_bounded_witness :
    teamsBounded (runGameOps [.join 0 "Al" .kFirst, .join 1 "Bo" .kRandom, .leave 0]) ∧
    teamsBounded (gFirstFull.join 9 "Zed" .kSecond).fst :=
  ⟨teams_always_bounded.1 _,
   teams_always_bounded.2 gFirstFull 9 "Zed" .kSecond ⟨by decide, by decide⟩⟩

theorem mem_keys_of_containsKey (j : JVal) (k : String)
    (hc : j.containsKey k = true) : k ∈ j.entries.map Prod.fst := by
  unfold JVal.containsKey JVal.lookup at hc
  cases hf : List.find? (fun kv => kv.fst == k) j.entries with
  | none => rw [hf] at hc; simp at hc
  | some x =>
    have hmem := List.mem_of_find?_eq_some hf
    have hpx := List.find?_some hf
    rw [beq_iff_eq] at hpx
    exact hpx ▸ List.mem_map_of_mem Prod.fst hmem

theorem lookup_unsigned_of_shape (j : JVal) (k : String)
    (hc : j.containsKey k = true) (hu : (j.get k).isUnsigned = true) :
    ∃ n, j.lookup k = some (.nU n) := by
  unfold JVal.containsKey at hc
  cases hl : j.lookup k with
  | none => rw [hl] at hc; simp at hc
  | some v =>
    unfold JVal.get at hu
    rw [hl] at hu
    simp only [Option.getD_some] at hu
    cases v <;> simp [JVal.isUnsigned] at hu ⊢

theorem lookup_string_of_shape (j : JVal) (k : String)
    (hc : j.containsKey k = true) (hu : (j.get k).isString = true) :
    ∃ t, j.lookup k = some (.s t) := by
  unfold JVal.containsKey at hc
  cases hl : j.lookup k with
  | none => rw [hl] at hc; simp at hc
  | some v =>
    unfold JVal.get at hu
    rw [hl] at hu
    simp only [Option.getD_some] at hu
    cases v <;> simp [JVal.isString] at hu ⊢

theorem mem_of_four_keys (l : List String) (hlen : l.length = 4)
    (h1 : "type" ∈ l) (h2 : "id" ∈ l) (h3 : "nick" ∈ l) (h4 : "game" ∈ l) :
    ∀ x ∈ l, x = "type" ∨ x = "id" ∨ x = "nick" ∨ x = "game" := by
  intro x hx
  by_contra hc
  push_neg at hc
  obtain ⟨n1, n2, n3, n4⟩ := hc
  have hsub : ({x, "type", "id", "nick", "game"} : Finset String) ⊆ l.toFinset := by
    intro y hy
    simp only [Finset.mem_insert, Finset.mem_singleton] at hy
    rw [List.mem_toFinset]
    rcases hy with rfl | rfl | rfl | rfl | rfl <;> assumption
  have hcard : ({x, "type", "id", "nick", "game"} : Finset String).card = 5 := by
    rw [Finset.card_insert_of_not_mem (by simp [n1, n2, n3, n4])]
    decide
  have hle := Finset.card_le_card hsub
  have hfin : l.toFinset.card ≤ l.length := List.toFinset_card_le l
  omega

theorem verify_true_source (parsed : Option JVal) (jv : JVal)
    (h : verify parsed = (true, jv)) : parsed = some jv := by
  cases parsed with
  | none => simp [verify] at h
  | some j =>
    simp only [verify] at h
    by_cases h0 : (j.containsKey "type" && (j.get "type").isString) = true
    · simp only [h0, Bool.not_true, Bool.false_eq_true, if_false] at h
      by_cases hj : typeIs j "join" = true
      · simp only [hj, if_true] at h
        by_cases hs : joinShapeOk j = true
        · simp only [hs, Bool.not_true, Bool.false_eq_true, if_false, Prod.mk.injEq] at h
          rw [h.2]
        · simp only [Bool.not_eq_true] at hs
          simp [hs] at h
      · simp only [hj, Bool.false_eq_true, if_false] at h
        by_cases hu : typeIs j "update" = true
        · simp only [hu, if_true] at h
          by_cases hs : updateShapeOk j = true
          · simp only [hs, Bool.not_true, Bool.false_eq_true, if_false, Prod.mk.injEq] at h
            rw [h.2]
          · simp only [Bool.not_eq_true] at hs
            simp [hs] at h
        · simp only [hu, Bool.false_eq_true, if_false] at h
          by_cases hl : typeIs j "leave" = true
          · simp only [hl, if_true] at h
            by_cases hs : j.osize = 1
            · simp only [hs, bne_self_eq_false, Bool.false_eq_true, if_false,
                Prod.mk.injEq, true_and] at h
              rw [h]
            · have hb : (j.osize != 1) = true := by simpa [bne_iff_ne] using hs
              rw [hb] at h
              simp at h
          · simp only [hl, Bool.false_eq_true, if_false] at h
            simp at h
    · simp only [Bool.not_eq_true] at h0
      simp [h0] at h

/-- C10: a raw frame that `PackageVerifier::Verify` accepts as a join package
is exactly the four-field object `type`/`id`/`nick`/`game`, with `id` an
unsigned number and `nick`/`game` strings; consequently the unjoined
delegate’s unchecked accesses `request["game"]`, `request["id"]` (and the
`nick` the join stores) all find a present field of the expected type, and no
missing-key access is reachable from a verified join package. -/
theorem verified_join_package_shape (j jv : JVal)
    (h : verify (some j) = (true, jv)) (hj : typeIs jv "join" = true) :
    jv = j ∧
    jv.lookup "type" = some (.s "join") ∧
    (∃ n, jv.lookup "id" = some (.nU n)) ∧
    (∃ nk, jv.lookup "nick" = some (.s nk)) ∧
    (∃ gm, jv.lookup "game" = some (.s gm)) ∧
    jv.osize = 4 ∧
    (∀ k, jv.containsKey k = true → (k = "type" ∨ k = "id" ∨ k = "nick" ∨ k = "game")) := by
  have hsrc := verify_true_source (some j) jv h
  have hjv : j = jv := Option.some.inj hsrc
  subst hjv
  have h0 : (j.containsKey "type" && (j.get "type").isString) = true := by
    by_contra hc
    rw [Bool.not_eq_true] at hc
    simp [verify, hc] at h
  have hshape : joinShapeOk j = true := by
    by_contra hc
    rw [Bool.not_eq_true] at hc
    simp [verify, h0, hj, hc] at h
  rw [Bool.and_eq_true] at h0
  simp only [joinShapeOk, Bool.and_eq_true, beq_iff_eq] at hshape
  obtain ⟨⟨⟨⟨⟨⟨hid, hnick⟩, hgame⟩, hsz⟩, hidU⟩, hnkS⟩, hgmS⟩ := hshape
  have htypemem := mem_keys_of_containsKey j "type" h0.1
  have hidmem := mem_keys_of_containsKey j "id" hid
  have hnickmem := mem_keys_of_containsKey j "nick" hnick
  have hgamemem := mem_keys_of_containsKey j "game" hgame
  have hkeyslen : (j.entries.map Prod.fst).length = 4 := by
    rw [List.length_map]
    exact hsz
  refine ⟨rfl, (typeIs_iff j "join").mp hj,
    lookup_unsigned_of_shape j "id" hid hidU,
    lookup_string_of_shape j "nick" hnick hnkS,
    lookup_string_of_shape j "game" hgame hgmS,
    hsz, ?_⟩
  intro k hk
  exact mem_of_four_keys (j.entries.map Prod.fst) hkeyslen htypemem hidmem hnickmem hgamemem
    k (mem_keys_of_containsKey j k hk)

/-- C10 witness: the spec’s sample join package is accepted by the verifier
and satisfies the shape consequences. -/
theorem verified_join_package_shape_witness :
    joinReqAl.lookup "type" = some (.s "join") ∧
    (∃ n, joinReqAl.lookup "id" = some (.nU n)) ∧
    (∃ nk, joinReqAl.lookup "nick" = some (.s nk)) ∧
    (∃ gm, joinReqAl.lookup "game" = some (.s gm)) ∧
    joinReqAl.osize = 4 :=
  have h := verified_join_package_shape joinReqAl joinReqAl (by rfl) (by rfl)
  ⟨h.2.1, h.2.2.1, h.2.2.2.1, h.2.2.2.2.1, h.2.2.2.2.2.1⟩

/-- C4 counterexample: for the concrete frame `{"type":"ping"}` (valid JSON,
type none of join/update/leave) the read path does NOT reply with the
advisory warning `{closed:false, type:"warning"}` and continue — it closes
the session with the verifier’s `MakeUnidentified` package, whose `closed`
field holds `[true]` and whose `type` field holds `["error"]`. -/
theorem unknown_type_advisory_cex :
    handleRead (some pingPkg) = .closeWith mkUnidentified ∧
    mkUnidentified.lookup "closed" = some (.arr [.b true]) ∧
    mkUnidentified.lookup "type" = some (.arr [.s "error"]) ∧
    mkUnidentified ≠ specAdvisoryWarning := by
  refine ⟨rfl, rfl, rfl, ?_⟩
  intro h
  exact JVal.noConfusion
    (Option.some.inj (congrArg (fun x => JVal.lookup x "closed") h))

/-- C4 amended: an inbound frame that parses as JSON with a string `type`
that is none of `join`, `update`, `leave` is rejected by
`PackageVerifier::Verify` with the `MakeUnidentified` error package
(`closed` = `[true]`, `type` = `["error"]`, message "Cannot identify a
packge."), and `HandleRead` closes the session with that package; the frame
never reaches a dispatch delegate, so this holds for unjoined and in-game
sessions alike. -/
theorem unknown_type_closes_session (j : JVal) (t : String)
    (ht : j.lookup "type" = some (.s t))
    (h1 : t ≠ "join") (h2 : t ≠ "update") (h3 : t ≠ "leave") :
    verify (some j) = (false, mkUnidentified) ∧
    handleRead (some j) = .closeWith mkUnidentified := by
  have hc : (j.containsKey "type" && (j.get "type").isString) = true := by
    simp [JVal.containsKey, JVal.get, ht, JVal.isString]
  have htj : typeIs j "join" = false := by
    simp only [typeIs, ht, beq_eq_false_iff_ne, ne_eq]
    exact h1
  have htu : typeIs j "update" = false := by
    simp only [typeIs, ht, beq_eq_false_iff_ne, ne_eq]
    exact h2
  have htl : typeIs j "leave" = false := by
    simp only [typeIs, ht, beq_eq_false_iff_ne, ne_eq]
    exact h3
  have hv : verify (some j) = (false, mkUnidentified) := by
    simp only [verify, hc, Bool.not_true, Bool.false_eq_true, if_false,
      htj, htu, htl]
  exact ⟨hv, by simp only [handleRead, hv, Bool.false_eq_true, if_false]⟩

/-- C4 witness: the amended behavior at the concrete frame `{"type":"ping"}`. -/
theorem unknown_type_closes_session_witness :
    verify (some pingPkg) = (false, mkUnidentified) ∧
    handleRead (some pingPkg) = .closeWith mkUnidentified :=
  unknown_type_closes_session pingPkg "ping" rfl (by decide) (by decide) (by decide)

/-- C5 counterexample: on a frame whose bytes are not valid JSON the session
is indeed closed, but the reply is NOT the package
`{"closed":true,"type":"error","message":"One of the packages didn’t contain
a valid JSON."}` claimed: `MakeNotValidJSON` builds each field with an inner
braced list, so `closed` holds the one-element array `[true]` (and likewise
for `type` and `message`). -/
theorem bad_json_exact_package_cex :
    handleRead none = .closeWith mkNotValidJSON ∧
    mkNotValidJSON.lookup "closed" = some (.arr [.b true]) ∧
    specNotValidJSONPkg.lookup "closed" = some (.b true) ∧
    mkNotValidJSON ≠ specNotValidJSONPkg := by
  refine ⟨rfl, rfl, rfl, ?_⟩
  intro h
  exact JVal.noConfusion
    (Option.some.inj (congrArg (fun x => JVal.lookup x "closed") h))

/-- C5 amended: on a frame whose bytes are not valid JSON the server replies
with `MakeNotValidJSON` — the object whose fields are the one-element arrays
`closed = [true]`, `type = ["error"]`,
`message = ["One of the packages didn’t contain a valid JSON."]` — and then
closes the WebSocket session (`Close(error_pkg)` in `HandleRead`). -/
theorem bad_json_reply_and_close :
    handleRead none = .closeWith mkNotValidJSON ∧
    mkNotValidJSON =
      .obj [("closed", .arr [.b true]),
            ("message", .arr [.s "One of the packages didn\x27t contain a valid JSON."]),
            ("type", .arr [.s "error"])] :=
  ⟨rfl, rfl⟩

/-- C3 (evaluation at the failing input): for the verified join package
`{"type":"join","id":7,"nick":"Al","game":"G"}` handled for a fresh
unjoined session, the value the unjoined delegate serializes and writes is
NOT the claimed object `{id, result, my_id, players, rays}`: it is the
two-element array `[false, {...}]` (the `std::make_pair` return converted to
JSON), the inner object wraps every field in a one-element array, and its
`rays` field holds `[null]` because the snapshot `Game::GetCurrentState`
returns has no `"rays"` key at all. -/
theorem join_reply_actual_shape :
    (makeResponse freshServer 0 joinReqAl).snd =
      .arr [.b false,
        .obj [("id", .arr [.nU 7]),
              ("my_id", .arr [.nU 0]),
              ("players", .arr [.arr [.obj [("angle", .nF 0),
                                            ("color", .arr [.nU 0, .nU 0, .nU 0]),
                                            ("health", .nF 100),
                                            ("nick", .s "Al"),
                                            ("player_id", .nU 0),
                                            ("position", .arr [.nI 0, .nI 0]),
                                            ("team_id", .nU 1)]]]),
              ("rays", .arr [.null]),
              ("result", .arr [.s "joined"])]] ∧
    (makeResponse freshServer 0 joinReqAl).snd.isObj = false ∧
    ((GameState.initial.join 0 "Al" .kRandom).fst.getCurrentState).lookup "rays" = none :=
  ⟨rfl, rfl, rfl⟩

/-- C6 counterexample: in a server whose game `"G"` holds only session 0, a
`{"type":"leave"}` package dispatched to the game’s delegate completes the
leave (player count drops to 0) yet `"G"` is still present in the games map —
only `Server::Unregister` ever erases a game; `Game::DoResponse` does not. -/
theorem empty_game_stays_after_leave_cex :
    (gamesFind (dispatchToGame serverOneInG "G" 0 leavePkg).fst.games "G").map
      GameState.getPlayersCount = some 0 ∧
    (gamesFind (dispatchToGame serverOneInG "G" 0 leavePkg).fst.games "G").isSome = true ∧
    corrFind (dispatchToGame serverOneInG "G" 0 leavePkg).fst.correlations 0 =
      some (some "G") :=
  ⟨rfl, rfl, rfl⟩

theorem gamesFind_erase_self (gs : List (String × GameState)) (name : String)
    (hnd : (gs.map Prod.fst).Nodup) :
    gamesFind (gamesErase gs name) name = none := by
  induction gs with
  | nil => rfl
  | cons hd tl ih =>
    simp only [List.map_cons, List.nodup_cons] at hnd
    obtain ⟨hni, hndtl⟩ := hnd
    simp only [gamesErase]
    by_cases hh : hd.fst == name
    · rw [if_pos hh]
      rw [beq_iff_eq] at hh
      subst hh
      unfold gamesFind
      rw [List.find?_eq_none.mpr]
      · rfl
      · intro x hx
        simp only [beq_iff_eq]
        intro hxn
        exact hni (hxn ▸ List.mem_map_of_mem Prod.fst hx)
    · rw [if_neg (by simpa using hh)]
      have hb : (hd.fst == name) = false := by simpa using hh
      unfold gamesFind at ih ⊢
      simp only [List.find?_cons, hb, cond_false]
      exact ih hndtl

/-- C6 amended: the zero-player cleanup happens on the `Server::Unregister`
path only — when an unregistering session’s correlation names a game present
in the map and that game’s player count drops to zero after `Leave`, the game
is erased from the games map.  (A leave handled by the game delegate performs
no such cleanup, as the counterexample shows.) -/
theorem unregister_removes_empty_game (st : ServerState) (s : Nat) (name : String)
    (g : GameState)
    (hstop : st.hasStopped = false)
    (hc : corrFind st.correlations s = some (some name))
    (hg : gamesFind st.games name = some g)
    (hnd : (st.games.map Prod.fst).Nodup)
    (hcount : (g.leave s).fst.getPlayersCount = 0) :
    gamesFind (serverUnregister st s).games name = none := by
  simp only [serverUnregister, hstop, Bool.false_eq_true, if_false, hc, hg, hcount]
  simp only [Nat.zero_eq, beq_self_eq_true, if_true]
  exact gamesFind_erase_self st.games name hnd

/-- C6 witness: unregistering the sole member of game `"G"` removes `"G"`
from the games map. -/
theorem unregister_removes_empty_game_witness :
    gamesFind (serverUnregister serverOneInG 0).games "G" = none :=
  unregister_removes_empty_game serverOneInG 0 "G" gOneFirst rfl rfl rfl
    (by decide) (by decide)

/-- C8 (evaluation at the failing input): dispatching a valid
`{"type":"leave"}` package from the in-game session 0 does remove the session
from the game and re-register it (restoring the unjoined delegate), but —
because `Game::DoResponse` has no early return after the leave branch — the
advisory warning "Received an unidentified package." is ALSO written back to
the sender; the same warning is written for a valid `update` package (whose
handler is an empty TODO).  Only the failed-leave path (`Close`) skips the
warning. -/
theorem leave_dispatch_also_sends_warning :
    (doResponse gOneFirst 0 leavePkg).registered = true ∧
    (doResponse gOneFirst 0 leavePkg).state.firstTeam = [] ∧
    (doResponse gOneFirst 0 leavePkg).state.playersCache = [] ∧
    (doResponse gOneFirst 0 leavePkg).closed = false ∧
    (doResponse gOneFirst 0 leavePkg).sent = [mkGameUnidentified] ∧
    (doResponse gOneFirst 0 updatePkg).sent = [mkGameUnidentified] ∧
    (doResponse gOneFirst 1 leavePkg).closed = true ∧
    (doResponse gOneFirst 1 leavePkg).sent = [] ∧
    mkGameUnidentified.lookup "type" = some (.s "warning") ∧
    mkGameUnidentified.lookup "closed" = some (.b false) :=
  ⟨rfl, rfl, rfl, rfl, rfl, rfl, rfl, rfl, rfl, rfl⟩

theorem sessInv_mk (q : List Nat) (h c sc : Bool) (fl sts : Nat)
    (hfl : fl ≤ 1) (hh : h = false → fl = 0) (hq : fl = 1 → q ≠ []) :
    SessInv ⟨q, h, c, sc, fl, sts⟩ :=
  ⟨hfl, hh, hq⟩

theorem sessStep_preserves_inv (st : SessState) (op : SessOp) (h : SessInv st) :
    SessInv (sessStep st op) := by
  obtain ⟨h1, h2, h3⟩ := h
  cases op with
  | write p =>
    simp only [sessStep, stepWrite]
    by_cases hc : st.closing = true
    · simp only [hc, if_true]
      exact ⟨h1, h2, h3⟩
    · rw [Bool.not_eq_true] at hc
      simp only [hc, Bool.false_eq_true, if_false]
      by_cases hq : 1 < (st.queue ++ [p]).length
      · simp only [hq, if_true]
        exact sessInv_mk _ _ _ _ _ _ h1 h2 (fun _ => by simp)
      · simp only [hq, if_false]
        have hempty : st.queue = [] := by
          have : st.queue.length = 0 := by
            simp only [List.length_append, List.length_cons, List.length_nil] at hq
            omega
          exact List.eq_nil_of_length_eq_zero this
        have hzero : st.inFlight = 0 := by
          rcases Nat.lt_or_ge st.inFlight 1 with hlt | hge
          · omega
          · exact absurd hempty (h3 (by omega))
        by_cases hh : st.handshakeDone = true
        · simp only [hh, Bool.not_true, Bool.false_eq_true, if_false]
          exact sessInv_mk _ _ _ _ _ _ (by omega) (fun hf => by cases hf) (fun _ => by simp)
        · rw [Bool.not_eq_true] at hh
          simp only [hh, Bool.not_false, if_true]
          exact sessInv_mk _ _ _ _ _ _ (by omega) (fun _ => hzero) (fun hf => by omega)
  | handshakeOk =>
    simp only [sessStep, stepHandshake]
    by_cases hh : st.handshakeDone = true
    · simp only [hh, if_true]
      exact ⟨h1, h2, h3⟩
    · rw [Bool.not_eq_true] at hh
      have hzero : st.inFlight = 0 := h2 hh
      simp only [hh, Bool.false_eq_true, if_false]
      by_cases hq : st.queue.isEmpty = true
      · simp only [hq, if_true]
        exact sessInv_mk _ _ _ _ _ _ h1 (fun hf => by cases hf) h3
      · simp only [hq, Bool.false_eq_true, if_false]
        refine sessInv_mk _ _ _ _ _ _ (by omega) (fun hf => by cases hf) (fun _ hnil => ?_)
        rw [hnil] at hq
        simp at hq
  | handleWrite err =>
    simp only [sessStep, stepHandleWrite]
    by_cases h0 : (st.inFlight == 0) = true
    · simp only [h0, if_true]
      exact ⟨h1, h2, h3⟩
    · have hone : st.inFlight = 1 := by
        rw [beq_iff_eq] at h0
        omega
      simp only [h0, Bool.false_eq_true, if_false]
      by_cases he : err = true
      · simp only [he, if_true]
        exact sessInv_mk _ _ _ _ _ _ (by omega) (fun _ => by omega) (fun hf => by omega)
      · simp only [he, Bool.false_eq_true, if_false]
        by_cases hcl : st.closing = true
        · simp only [hcl, if_true]
          exact sessInv_mk _ _ _ _ _ _ (by omega) (fun _ => by omega) (fun hf => by omega)
        · simp only [hcl, Bool.false_eq_true, if_false]
          by_cases hq : st.queue.tail.isEmpty = true
          · simp only [hq, if_true]
            exact sessInv_mk _ _ _ _ _ _ (by omega) (fun _ => by omega) (fun hf => by omega)
          · simp only [hq, Bool.false_eq_true, if_false]
            refine sessInv_mk _ _ _ _ _ _ (by omega) (fun hf => absurd (h2 hf) (by omega))
              (fun _ hnil => ?_)
            rw [hnil] at hq
            simp at hq
  | close =>
    simp only [sessStep, stepClose]
    by_cases hc : st.closing = true
    · simp only [hc, Bool.not_true, Bool.false_eq_true, if_false]
      exact ⟨h1, h2, h3⟩
    · rw [Bool.not_eq_true] at hc
      simp only [hc, Bool.not_false, if_true]
      by_cases hq : 1 < st.queue.length
      · simp only [hq, if_true]
        refine sessInv_mk _ _ _ _ _ _ h1 h2 (fun hf hnil => ?_)
        have hlen := congrArg List.length hnil
        simp [Nat.min_eq_left (by omega : 1 ≤ st.queue.length)] at hlen
      · simp only [hq, if_false]
        by_cases h1q : (st.queue.length == 1) = true
        · simp only [h1q, if_true]
          exact ⟨h1, h2, h3⟩
        · simp only [h1q, Bool.false_eq_true, if_false]
          exact ⟨h1, h2, h3⟩
  | closePkg p =>
    simp only [sessStep, stepClosePkg]
    by_cases hq : 1 < st.queue.length
    · simp only [hq, if_true]
      refine sessInv_mk _ _ _ _ _ _ h1 h2 (fun hf hnil => ?_)
      have := congrArg List.length hnil
      simp [Nat.min_eq_left (by omega : 1 ≤ st.queue.length)] at this
    · simp only [hq, if_false]
      by_cases h1q : (st.queue.length == 1) = true
      · simp only [h1q, if_true]
        refine sessInv_mk _ _ _ _ _ _ h1 h2 (fun hf hnil => ?_)
        have := congrArg List.length hnil
        simp at this
      · simp only [h1q, Bool.false_eq_true, if_false]
        exact ⟨h1, h2, h3⟩

theorem sessRun_inv (ops : List SessOp) : SessInv (sessRun ops) := by
  have run : ∀ (l : List SessOp) (st : SessState), SessInv st →
      SessInv (l.foldl sessStep st) := by
    intro l
    induction l with
    | nil => intro st hst; simpa using hst
    | cons op tl ih =>
      intro st hst
      exact ih _ (sessStep_preserves_inv st op hst)
  exact run ops SessState.init ⟨by simp [SessState.init], fun _ => by simp [SessState.init],
    fun hf => by simp [SessState.init] at hf⟩

/-- C9 counterexample: the claim’s mechanism clause — "a new async write is
started only when the outbound queue transitions from empty to non-empty, and
otherwise only by the completion handler of the previous write" — is false:
after a `Write` performed while the handshake is still pending (which
enqueues without starting), the handshake-completion handler starts the
async write of the already non-empty queue, and it is neither a `Write`
finding an empty queue nor a write-completion handler. -/
theorem write_start_mechanism_cex : ¬ startsOnlyFromEmptyWriteOrCompletion := by
  intro h
  have hr : SessReachable (sessRun [SessOp.write 0]) := ⟨[SessOp.write 0], rfl⟩
  have hs : startsNewWrite (sessRun [SessOp.write 0]) SessOp.handshakeOk := by
    simp only [startsNewWrite]
    decide
  rcases h _ _ hr hs with ⟨p, hop, _⟩ | ⟨e, hop⟩
  · exact SessOp.noConfusion hop
  · exact SessOp.noConfusion hop

/-- C9 amended: (1) on every session, along any interleaving of `Write`,
`HandleWrite`, `HandleHandshake` and `Close` steps, the number of in-flight
async writes is at most 1; (2) a new async write is started only by a `Write`
that found the queue empty, by the completion handler of the previous write,
or by the handshake-completion handler flushing writes queued during
handshaking. -/
theorem write_pipeline_single_flight :
    (∀ ops : List SessOp, (sessRun ops).inFlight ≤ 1) ∧
    (∀ (st : SessState) (op : SessOp), startsNewWrite st op →
       (∃ p, op = SessOp.write p ∧ st.queue = []) ∨
       (∃ e, op = SessOp.handleWrite e) ∨
       (op = SessOp.handshakeOk ∧ st.queue ≠ [])) := by
  constructor
  · exact fun ops => (sessRun_inv ops).1
  · intro st op hs
    simp only [startsNewWrite] at hs
    cases op with
    | write p =>
      left
      refine ⟨p, rfl, ?_⟩
      simp only [sessStep, stepWrite] at hs
      by_cases hc : st.closing = true
      · rw [if_pos hc] at hs
        exact absurd hs (Nat.lt_irrefl _)
      · rw [if_neg hc] at hs
        by_cases hq : 1 < (st.queue ++ [p]).length
        · rw [if_pos hq] at hs
          exact absurd hs (Nat.lt_irrefl _)
        · refine List.eq_nil_of_length_eq_zero ?_
          simp only [List.length_append, List.length_cons, List.length_nil] at hq
          omega
    | handshakeOk =>
      right; right
      refine ⟨rfl, ?_⟩
      simp only [sessStep, stepHandshake] at hs
      by_cases hh : st.handshakeDone = true
      · rw [if_pos hh] at hs
        exact absurd hs (Nat.lt_irrefl _)
      · rw [if_neg hh] at hs
        by_cases hq : st.queue.isEmpty = true
        · rw [if_pos hq] at hs
          exact absurd hs (Nat.lt_irrefl _)
        · intro hnil
          rw [hnil] at hq
          exact hq rfl
    | handleWrite e =>
      right; left
      exact ⟨e, rfl⟩
    | close =>
      exfalso
      simp only [sessStep, stepClose] at hs
      by_cases hnc : (!st.closing) = true
      · rw [if_pos hnc] at hs
        by_cases hq : 1 < st.queue.length
        · rw [if_pos hq] at hs
          exact absurd hs (Nat.lt_irrefl _)
        · rw [if_neg hq] at hs
          by_cases h1q : (st.queue.length == 1) = true
          · rw [if_pos h1q] at hs
            exact absurd hs (Nat.lt_irrefl _)
          · rw [if_neg (by simpa using h1q)] at hs
            exact absurd hs (Nat.lt_irrefl _)
      · rw [if_neg (by simpa using hnc)] at hs
        exact absurd hs (Nat.lt_irrefl _)
    | closePkg p =>
      exfalso
      simp only [sessStep, stepClosePkg] at hs
      by_cases hq : 1 < st.queue.length
      · rw [if_pos hq] at hs
        exact absurd hs (Nat.lt_irrefl _)
      · rw [if_neg hq] at hs
        by_cases h1q : (st.queue.length == 1) = true
        · rw [if_pos h1q] at hs
          exact absurd hs (Nat.lt_irrefl _)
        · rw [if_neg (by simpa using h1q)] at hs
          exact absurd hs (Nat.lt_irrefl _)

/-- C9 witness: the invariant along a concrete trace, and the start
characterization applied to a concrete starting step. -/
theorem write_pipeline_single_flight_witness :
    (sessRun [SessOp.write 0, SessOp.handshakeOk, SessOp.handleWrite false]).inFlight ≤ 1 ∧
    ((∃ p, SessOp.write 3 = SessOp.write p ∧
        ({ SessState.init with handshakeDone := true } : SessState).queue = []) ∨
     (∃ e, SessOp.write 3 = SessOp.handleWrite e) ∨
     (SessOp.write 3 = SessOp.handshakeOk ∧
        ({ SessState.init with handshakeDone := true } : SessState).queue ≠ [])) :=
  ⟨write_pipeline_single_flight.1 _,
   write_pipeline_single_flight.2 { SessState.init with handshakeDone := true }
     (SessOp.write 3) (by simp only [startsNewWrite]; decide)⟩
